import Mathlib

/-
  Verification development for the libwebsockets tokenizer core
  (src/include/libwebsockets/lws-tokenize.h).

  The repository snapshot contains the interface header only; the scan loop
  body itself is not among the sources.  The enum of results, the flag bits,
  the struct layout and the documented contracts of lws_tokenize_init and
  lws_tokenize_cstr are embedded from the header; the behaviour of the scan
  step is modelled from the specification (sections 4.1-4.5 of the design
  document), faithful to its words.

  Buffers are modelled as lists of bytes (Nat, each < 256 in intended use);
  the C pointer/length pair (start, len) becomes an immutable buffer plus a
  cursor offset and a remaining-length counter.
-/

namespace LwsTok

set_option maxHeartbeats 2000000
set_option maxRecDepth 10000

/-- Flag bit from the header: do not treat minus as a terminal character. -/
def LWS_TOKENIZE_F_MINUS_NONTERM : Nat := 1

/-- Flag bit from the header: separately report aggregate colon-delimited tokens. -/
def LWS_TOKENIZE_F_AGG_COLON : Nat := 2

/-- Flag bit from the header: enforce sequencing for a comma-separated list. -/
def LWS_TOKENIZE_F_COMMA_SEP_LIST : Nat := 4

/-- Flag bit from the header: allow more characters in tokens, fewer delimiters. -/
def LWS_TOKENIZE_F_RFC7230_DELIMS : Nat := 8

/-- Flag bit from the header: do not treat dot as a terminal character. -/
def LWS_TOKENIZE_F_DOT_NONTERM : Nat := 16

/-- Flag bit from the header: force float-looking runs to be string tokens. -/
def LWS_TOKENIZE_F_NO_FLOATS : Nat := 32

/-- Flag bit from the header: report integers as any other string token. -/
def LWS_TOKENIZE_F_NO_INTEGERS : Nat := 64

/-- Flag bit from the header: hash makes the rest of the line a comment. -/
def LWS_TOKENIZE_F_HASH_COMMENT : Nat := 128

/-- Result enumeration of the scan step, embedded from lws_tokenize_elem in
the header: five error kinds, the terminal ENDED, and seven success elements. -/
inductive lws_tokenize_elem where
  | ERR_BROKEN_UTF8
  | ERR_UNTERM_STRING
  | ERR_MALFORMED_FLOAT
  | ERR_NUM_ON_LHS
  | ERR_COMMA_LIST
  | ENDED
  | DELIMITER
  | TOKEN
  | INTEGER
  | FLOAT
  | TOKEN_NAME_EQUALS
  | TOKEN_NAME_COLON
  | QUOTED_STRING
deriving DecidableEq, Fintype

open lws_tokenize_elem

/-- Numeric value each enumerator carries in the C enum of the header
(errors -5..-1, ENDED = 0, successes have ordinal 1 and up). -/
def lws_tokenize_elem.val : lws_tokenize_elem → Int
  | ERR_BROKEN_UTF8 => -5
  | ERR_UNTERM_STRING => -4
  | ERR_MALFORMED_FLOAT => -3
  | ERR_NUM_ON_LHS => -2
  | ERR_COMMA_LIST => -1
  | ENDED => 0
  | DELIMITER => 1
  | TOKEN => 2
  | INTEGER => 3
  | FLOAT => 4
  | TOKEN_NAME_EQUALS => 5
  | TOKEN_NAME_COLON => 6
  | QUOTED_STRING => 7

/-- Constant from the header enum: the number of errors defined. -/
def LWS_TOKZE_ERRS : Int := 5

/-- Predicate: the result is one of the five error kinds. -/
def lws_tokenize_elem.isErr : lws_tokenize_elem → Bool
  | ERR_BROKEN_UTF8 => true
  | ERR_UNTERM_STRING => true
  | ERR_MALFORMED_FLOAT => true
  | ERR_NUM_ON_LHS => true
  | ERR_COMMA_LIST => true
  | _ => false

/-- Delimiter-sequencing phases, embedded from enum
lws_tokenize_delimiter_tracking in the header. -/
inductive lws_tokenize_delimiter_tracking where
  | NEED_FIRST_CONTENT
  | NEED_DELIM
  | NEED_NEXT_CONTENT
deriving DecidableEq

open lws_tokenize_delimiter_tracking

/-- Scanner state, embedded from struct lws_tokenize of the header.  The C
advancing pointer start together with the origin buffer is modelled as the
immutable buffer start plus the cursor offset pos; token is the offset of the
most recently identified token or delimiter payload within start. -/
structure lws_tokenize_t where
  start : List Nat
  pos : Nat
  len : Nat
  flags : Nat
  delim : lws_tokenize_delimiter_tracking
  token : Nat
  token_len : Nat
deriving DecidableEq

/-- Whitespace class used by the classifier: space, tab, newline, carriage
return, form feed. -/
def isWsByte (b : Nat) : Bool :=
  b = 32 || b = 9 || b = 10 || b = 13 || b = 12

/-- Decimal digit class. -/
def isDigitByte (b : Nat) : Bool :=
  48 ≤ b && b ≤ 57

/-- Extra token characters admitted by the RFC7230 wire-protocol grammar
(tchar specials) when the extended-delimiters flag is set. -/
def isRfc7230Extra (b : Nat) : Bool :=
  b = 33 || b = 36 || b = 37 || b = 38 || b = 39 || b = 42 || b = 43 ||
  b = 45 || b = 46 || b = 94 || b = 96 || b = 124 || b = 126

/-- Modelled from the spec: the content character class of section 4.1.
Default content is ASCII letters, digits and underscore; minus joins with the
dash-nonterminal flag, dot with the dot-nonterminal or no-floats flag, the
RFC7230 extras with the extended-delimiters flag; non-ASCII bytes belong to
content runs (subject to UTF-8 validation). -/
def isContentByte (flags b : Nat) : Bool :=
  (48 ≤ b && b ≤ 57) || (65 ≤ b && b ≤ 90) || (97 ≤ b && b ≤ 122) || b = 95 ||
  (Nat.testBit flags 0 && b = 45) ||
  ((Nat.testBit flags 4 || Nat.testBit flags 5) && b = 46) ||
  (Nat.testBit flags 3 && isRfc7230Extra b) ||
  128 ≤ b

/-- Modelled from the spec: UTF-8 leading byte classification (section 4.3), a
leading byte announces its expected continuation-byte count; none means an
invalid leading byte. -/
def utf8Lead (b : Nat) : Option Nat :=
  if b < 128 then some 0
  else if 192 ≤ b ∧ b < 224 then some 1
  else if 224 ≤ b ∧ b < 240 then some 2
  else if 240 ≤ b ∧ b < 248 then some 3
  else none

/-- Modelled from the spec: skipping of leading whitespace and, with the
hash-comment flag, of comment text through the end of its line (sections 4.1
and the flag table).  Returns the number of bytes consumed; stops at the first
significant byte, at a NUL, or when the remaining length is exhausted.  The
lws_tokenize scan loop body is not among the sources. -/
def skipWsC (flags : Nat) : Bool → List Nat → Nat → Nat
  | _, [], _ => 0
  | inComment, b :: rest, len =>
    if len = 0 then 0
    else if b = 0 then 0
    else if inComment then
      if b = 10 then 1 + skipWsC flags false rest (len - 1)
      else 1 + skipWsC flags true rest (len - 1)
    else if isWsByte b then 1 + skipWsC flags false rest (len - 1)
    else if b = 35 ∧ Nat.testBit flags 7 then 1 + skipWsC flags true rest (len - 1)
    else 0

/-- Outcome of scanning one content run: a broken-UTF-8 or malformed-float
error with the count of bytes consumed before the offending byte, or the run
length together with whether the run was numeric and whether it contained a
float dot. -/
inductive RunOut where
  | broken (consumed : Nat)
  | malformed (consumed : Nat)
  | ok (consumed : Nat) (num : Bool) (flo : Bool)
deriving DecidableEq

/-- Shift a run outcome by one consumed byte. -/
def RunOut.bump : RunOut → RunOut
  | .broken c => .broken (c + 1)
  | .malformed c => .malformed (c + 1)
  | .ok c n f => .ok (c + 1) n f

/-- Bytes consumed before an outcome was produced. -/
def RunOut.consumed : RunOut → Nat
  | .broken c => c
  | .malformed c => c
  | .ok c _ _ => c

/-- Modelled from the spec: the content-run scanner combining the classifier
of section 4.1, the numeric literal recognizer of section 4.2 and the shared
UTF-8 validation of section 4.3.  The argument num is none while undecided,
some true while the run is a numeric candidate, some false once non-numeric;
flo records a seen dot, dotLast that the previous byte was a dot, exp the
expected UTF-8 continuation count.  Two consecutive dots in a numeric run are
malformed under every flag combination; with floats enabled a second dot or a
dot not flanked by digits is malformed as well; the no-floats flag suppresses
the latter checks so dotted runs become plain tokens.  The lws_tokenize scan
loop body is not among the sources. -/
def scanRun (flags : Nat) : List Nat → Nat → Option Bool → Bool → Bool → Nat → RunOut
  | [], _, num, flo, dotLast, exp =>
    if exp ≠ 0 then .broken 0
    else if num = some true ∧ dotLast ∧ ¬Nat.testBit flags 5 then
      .malformed 0
    else .ok 0 (num = some true) flo
  | b :: rest, len, num, flo, dotLast, exp =>
    if len = 0 ∨ b = 0 then
      (if exp ≠ 0 then .broken 0
       else if num = some true ∧ dotLast ∧ ¬Nat.testBit flags 5 then
         .malformed 0
       else .ok 0 (num = some true) flo)
    else if exp ≠ 0 then
      (if 128 ≤ b ∧ b < 192 then
        (scanRun flags rest (len - 1) (some false) flo false (exp - 1)).bump
      else .broken 0)
    else if 128 ≤ b then
      (match utf8Lead b with
       | some k => (scanRun flags rest (len - 1) (some false) flo false k).bump
       | none => .broken 0)
    else if isDigitByte b then
      (scanRun flags rest (len - 1)
        (match num with | some false => some false | _ => some true)
        flo false 0).bump
    else if b = 46 ∧ num = some true then
      (if dotLast then .malformed 0
       else if flo ∧ ¬Nat.testBit flags 5 then .malformed 0
       else (scanRun flags rest (len - 1) (some true) true true 0).bump)
    else if isContentByte flags b then
      (if num = some true ∧ dotLast ∧ ¬Nat.testBit flags 5 then
        .malformed 0
       else (scanRun flags rest (len - 1) (some false) flo false 0).bump)
    else
      (if num = some true ∧ dotLast ∧ ¬Nat.testBit flags 5 then
        .malformed 0
       else .ok 0 (num = some true) flo)

/-- Modelled from the spec: the name-operator peek of section 4.4.  After a
token, look past trailing whitespace; report 1 for an equals sign, 2 for a
colon when the aggregate-colon flag is set, 0 otherwise, together with the
count of whitespace bytes skipped.  The lws_tokenize scan loop body is not
among the sources. -/
def peekOp (flags : Nat) : List Nat → Nat → Nat × Nat
  | [], _ => (0, 0)
  | b :: rest, len =>
    if len = 0 then (0, 0)
    else if b = 0 then (0, 0)
    else if isWsByte b then
      (let r := peekOp flags rest (len - 1); (r.1, r.2 + 1))
    else if b = 61 then (1, 0)
    else if b = 58 ∧ Nat.testBit flags 1 then (2, 0)
    else (0, 0)

/-- Outcome of scanning a quoted span: an unterminated-string or broken-UTF-8
error with the bytes consumed before the offending position, or the content
length of the string. -/
inductive QuoteOut where
  | unterm (consumed : Nat)
  | broken (consumed : Nat)
  | ok (contentLen : Nat)
deriving DecidableEq

/-- Shift a quoted-span outcome by one consumed byte. -/
def QuoteOut.bump : QuoteOut → QuoteOut
  | .unterm c => .unterm (c + 1)
  | .broken c => .broken (c + 1)
  | .ok c => .ok (c + 1)

/-- Bytes consumed from the post-quote suffix by a quoted-span outcome
(content plus the closing quote on success). -/
def QuoteOut.consumed : QuoteOut → Nat
  | .unterm c => c
  | .broken c => c
  | .ok c => c + 1

/-- Modelled from the spec: the quoted-string recognizer of section 4.3.
Starting just after the opening quote, bytes are consumed verbatim (no escape
processing) under UTF-8 validation until the closing quote; reaching a NUL,
the end of the buffer or length exhaustion first is the unterminated-string
error.  The lws_tokenize scan loop body is not among the sources. -/
def scanQuoted : List Nat → Nat → Nat → QuoteOut
  | [], _, _ => .unterm 0
  | b :: rest, len, exp =>
    if len = 0 ∨ b = 0 then .unterm 0
    else if exp ≠ 0 then
      (if 128 ≤ b ∧ b < 192 then (scanQuoted rest (len - 1) (exp - 1)).bump
       else .broken 0)
    else if b = 34 then .ok 0
    else if b < 128 then (scanQuoted rest (len - 1) 0).bump
    else
      (match utf8Lead b with
       | some k => (scanQuoted rest (len - 1) k).bump
       | none => .broken 0)

/-- Components of the scanner state that one scan call may change, together
with the element identified. -/
structure StepOut where
  pos : Nat
  len : Nat
  token : Nat
  token_len : Nat
  delim : lws_tokenize_delimiter_tracking
  e : lws_tokenize_elem
deriving DecidableEq

/-- Modelled from the spec: one call of the scan step (section 6 and sections
4.1-4.5) on the state components, dispatching between end-of-input, the
quoted-string recognizer, the content-run scanner with the name-operator peek,
and single-byte delimiters, with the delimiter-sequencing validator of
section 4.5 judging content and delimiter elements when the comma-list flag
is set.  The lws_tokenize body is not among the sources; its contract is
taken from the specification and the header documentation. -/
def tokStepCore (flags : Nat) (delim0 : lws_tokenize_delimiter_tracking)
    (token0 pos1 len1 : Nat) (rest1 : List Nat) : StepOut :=
  let comma := Nat.testBit flags 2
  let b := rest1.headD 0
  if len1 = 0 ∨ b = 0 then
    -- end of input; a trailing comma violates comma-list sequencing
    if comma ∧ delim0 = NEED_NEXT_CONTENT then
      ⟨pos1, len1, token0, 0, delim0, ERR_COMMA_LIST⟩
    else
      ⟨pos1, len1, token0, 0, delim0, ENDED⟩
  else if b = 34 then
    match scanQuoted (rest1.drop 1) (len1 - 1) 0 with
    | .unterm c =>
      ⟨pos1 + 1 + c, len1 - 1 - c, token0, 0, delim0, ERR_UNTERM_STRING⟩
    | .broken c =>
      ⟨pos1 + 1 + c, len1 - 1 - c, token0, 0, delim0, ERR_BROKEN_UTF8⟩
    | .ok clen =>
      if comma ∧ delim0 = NEED_DELIM then
        ⟨pos1, len1, token0, 0, delim0, ERR_COMMA_LIST⟩
      else
        ⟨pos1 + clen + 2, len1 - (clen + 2), pos1 + 1, clen,
         if comma then NEED_DELIM else delim0, QUOTED_STRING⟩
  else if isContentByte flags b then
    match scanRun flags rest1 len1 none false false 0 with
    | .broken c =>
      ⟨pos1 + c, len1 - c, token0, 0, delim0, ERR_BROKEN_UTF8⟩
    | .malformed c =>
      ⟨pos1 + c, len1 - c, token0, 0, delim0, ERR_MALFORMED_FLOAT⟩
    | .ok c num flo =>
      let r := peekOp flags (rest1.drop c) (len1 - c)
      if r.1 = 1 ∧ num then
        ⟨pos1 + c + r.2, len1 - c - r.2, token0, 0, delim0, ERR_NUM_ON_LHS⟩
      else if comma ∧ delim0 = NEED_DELIM then
        ⟨pos1, len1, token0, 0, delim0, ERR_COMMA_LIST⟩
      else
        let e := if r.1 = 1 then TOKEN_NAME_EQUALS
          else if r.1 = 2 then TOKEN_NAME_COLON
          else if num ∧ ¬flo then
            (if Nat.testBit flags 6 then TOKEN else INTEGER)
          else if num ∧ flo then
            (if Nat.testBit flags 5 then TOKEN else FLOAT)
          else TOKEN
        let consumed := if r.1 = 0 then c + r.2 else c + r.2 + 1
        ⟨pos1 + consumed, len1 - consumed, pos1, c,
         if comma then NEED_DELIM else delim0, e⟩
  else
    if comma then
      if delim0 = NEED_DELIM then
        ⟨pos1 + 1, len1 - 1, pos1, 1, NEED_NEXT_CONTENT, DELIMITER⟩
      else
        ⟨pos1, len1, token0, 0, delim0, ERR_COMMA_LIST⟩
    else
      ⟨pos1 + 1, len1 - 1, pos1, 1, delim0, DELIMITER⟩

/-- Modelled from the spec: one call of the scan step (section 6 and sections
4.1-4.5) on the state components: skip leading whitespace and comments, then
dispatch on the first significant byte.  The lws_tokenize body is not among
the sources; its contract is taken from the specification and the header
documentation. -/
def tokStep (start : List Nat) (flags : Nat)
    (delim0 : lws_tokenize_delimiter_tracking) (token0 pos0 len0 : Nat) :
    StepOut :=
  let k := skipWsC flags false (start.drop pos0) len0
  tokStepCore flags delim0 token0 (pos0 + k) (len0 - k) (start.drop (pos0 + k))

/-- Modelled from the spec: one call of the scan step on the scanner struct;
the C function lws_tokenize mutates the struct in place and returns the
element, modelled here as a pure function returning the new state and the
element.  The buffer and the flags are never modified. -/
def lws_tokenize (ts : lws_tokenize_t) : lws_tokenize_t × lws_tokenize_elem :=
  let r := tokStep ts.start ts.flags ts.delim ts.token ts.pos ts.len
  ({ ts with
      pos := r.pos,
      len := r.len,
      token := r.token,
      token_len := r.token_len,
      delim := r.delim }, r.e)

/-- Modelled from the spec: initialization (section 6), per the header
documentation of lws_tokenize_init, whose body is not among the sources: the
cursor points at the buffer start, the length is set to 2 GiB - 1 (the
effectively-unbounded sentinel for NUL-terminated scanning, overridable by
the caller), delim to NEED_FIRST_CONTENT, and the flags are stored. -/
def lws_tokenize_init (start : List Nat) (flags : Nat) : lws_tokenize_t :=
  { start := start, pos := 0, len := 2147483647, flags := flags,
    delim := NEED_FIRST_CONTENT, token := 0, token_len := 0 }

/-- Modelled from the spec: the extraction helper (section 4.6), per the
header documentation of lws_tokenize_cstr, whose body is not among the
sources: copy the current token into a destination of the given capacity,
NUL-terminated; returns 0 on success, nonzero if token plus NUL will not
fit. -/
def lws_tokenize_cstr (ts : lws_tokenize_t) (max : Nat) : Nat × List Nat :=
  if ts.token_len + 1 ≤ max then
    (0, ((ts.start.drop ts.token).take ts.token_len) ++ [0])
  else (1, [])

/-- Run the scan step repeatedly, collecting the sequence of elements. -/
def scanN (ts : lws_tokenize_t) : Nat → List lws_tokenize_elem
  | 0 => []
  | n + 1 =>
    let r := lws_tokenize ts
    r.2 :: scanN r.1 n


/-- C1: for every scanner state, one call of the scan step returns exactly one
element of the closed result set (end-of-input, Delimiter, Token, Integer,
Float, TokenNameEquals, TokenNameColon, QuotedString) or exactly one of the
five error kinds, each error a distinct value of the same result type,
never reported through a side channel (the scan step is a total function
into the result type). -/
theorem claim1_scan_result_closed_set (ts : lws_tokenize_t) :
    ((lws_tokenize ts).2 = ENDED ∨ (lws_tokenize ts).2 = DELIMITER ∨
     (lws_tokenize ts).2 = TOKEN ∨ (lws_tokenize ts).2 = INTEGER ∨
     (lws_tokenize ts).2 = FLOAT ∨ (lws_tokenize ts).2 = TOKEN_NAME_EQUALS ∨
     (lws_tokenize ts).2 = TOKEN_NAME_COLON ∨
     (lws_tokenize ts).2 = QUOTED_STRING ∨
     (lws_tokenize ts).2 = ERR_MALFORMED_FLOAT ∨
     (lws_tokenize ts).2 = ERR_UNTERM_STRING ∨
     (lws_tokenize ts).2 = ERR_BROKEN_UTF8 ∨
     (lws_tokenize ts).2 = ERR_NUM_ON_LHS ∨
     (lws_tokenize ts).2 = ERR_COMMA_LIST) ∧
    List.Nodup [ERR_MALFORMED_FLOAT, ERR_UNTERM_STRING, ERR_BROKEN_UTF8,
      ERR_NUM_ON_LHS, ERR_COMMA_LIST] ∧
    (∀ e : lws_tokenize_elem, e.isErr = true →
      e = ERR_MALFORMED_FLOAT ∨ e = ERR_UNTERM_STRING ∨ e = ERR_BROKEN_UTF8 ∨
      e = ERR_NUM_ON_LHS ∨ e = ERR_COMMA_LIST) := by
  refine ⟨?_, by decide, by decide⟩
  cases h : (lws_tokenize ts).2 <;> simp

/-- C10: the numeric values of the scan-result enumeration partition by sign:
negative exactly for the five error kinds, which carry the consecutive values
-5 through -1; zero exactly for end-of-input; one or greater for every
success element; and LWS_TOKZE_ERRS (5) equals the number of error variants
defined. -/
theorem claim10_enum_sign_partition :
    (∀ e : lws_tokenize_elem, e.val < 0 ↔ e.isErr = true) ∧
    (∀ e : lws_tokenize_elem, e.val = 0 ↔ e = ENDED) ∧
    (∀ e : lws_tokenize_elem, e.isErr = false → e ≠ ENDED → 1 ≤ e.val) ∧
    (ERR_BROKEN_UTF8.val = -5 ∧ ERR_UNTERM_STRING.val = -4 ∧
     ERR_MALFORMED_FLOAT.val = -3 ∧ ERR_NUM_ON_LHS.val = -2 ∧
     ERR_COMMA_LIST.val = -1) ∧
    LWS_TOKZE_ERRS = 5 ∧
    ([ERR_BROKEN_UTF8, ERR_UNTERM_STRING, ERR_MALFORMED_FLOAT,
      ERR_NUM_ON_LHS, ERR_COMMA_LIST] : List lws_tokenize_elem).length = 5 ∧
    List.Nodup [ERR_BROKEN_UTF8, ERR_UNTERM_STRING, ERR_MALFORMED_FLOAT,
      ERR_NUM_ON_LHS, ERR_COMMA_LIST] ∧
    (∀ e : lws_tokenize_elem,
      e ∈ [ERR_BROKEN_UTF8, ERR_UNTERM_STRING, ERR_MALFORMED_FLOAT,
        ERR_NUM_ON_LHS, ERR_COMMA_LIST] ↔ e.isErr = true) := by
  decide

/-- C6: initialization produces a state whose cursor is at the buffer start,
whose remaining length is the effectively-unbounded sentinel 2 GiB - 1 (for
NUL-terminated scanning, overridable by the caller), whose sequencing phase
is NEED_FIRST_CONTENT, and whose flags equal the given flags; the scan step
never changes the flags or the buffer. -/
theorem claim6_init_state (start : List Nat) (flags : Nat) :
    (lws_tokenize_init start flags).pos = 0 ∧
    (lws_tokenize_init start flags).len = 2147483647 ∧
    (lws_tokenize_init start flags).delim = NEED_FIRST_CONTENT ∧
    (lws_tokenize_init start flags).flags = flags ∧
    (lws_tokenize_init start flags).start = start ∧
    (∀ ts : lws_tokenize_t, (lws_tokenize ts).1.flags = ts.flags) ∧
    (∀ ts : lws_tokenize_t, (lws_tokenize ts).1.start = ts.start) := by
  exact ⟨rfl, rfl, rfl, rfl, rfl, fun ts => rfl, fun ts => rfl⟩

/-- C7: the extraction operation reports success exactly when the token
length plus one byte for the NUL terminator fits in the destination capacity;
when it does not fit (in particular when the capacity equals the token
length) it returns the capacity error, never success. -/
theorem claim7_extract_capacity (ts : lws_tokenize_t) (max : Nat) :
    ((lws_tokenize_cstr ts max).1 = 0 ↔ ts.token_len + 1 ≤ max) ∧
    (max = ts.token_len → (lws_tokenize_cstr ts max).1 ≠ 0) := by
  unfold lws_tokenize_cstr
  constructor
  · split <;> simp_all
  · intro h
    split <;> simp_all


/-- Phase transitions of the core step. -/
lemma tokStepCore_delim_forward (flags : Nat)
    (d0 : lws_tokenize_delimiter_tracking) (token0 pos1 len1 : Nat)
    (rest1 : List Nat) :
    (tokStepCore flags d0 token0 pos1 len1 rest1).delim = d0 ∨
    (d0 = NEED_FIRST_CONTENT ∧
      (tokStepCore flags d0 token0 pos1 len1 rest1).delim = NEED_DELIM) ∨
    (d0 = NEED_NEXT_CONTENT ∧
      (tokStepCore flags d0 token0 pos1 len1 rest1).delim = NEED_DELIM) ∨
    (d0 = NEED_DELIM ∧
      (tokStepCore flags d0 token0 pos1 len1 rest1).delim = NEED_NEXT_CONTENT) := by
  cases d0 <;> (simp only [tokStepCore]; repeat' split) <;> simp_all

/-- Comma-list violations do not advance the phase. -/
lemma tokStepCore_comma_err_delim (flags : Nat)
    (d0 : lws_tokenize_delimiter_tracking) (token0 pos1 len1 : Nat)
    (rest1 : List Nat)
    (h : (tokStepCore flags d0 token0 pos1 len1 rest1).e = ERR_COMMA_LIST) :
    (tokStepCore flags d0 token0 pos1 len1 rest1).delim = d0 := by
  revert h
  simp only [tokStepCore]
  repeat' split
  all_goals simp_all

/-- C2: with the comma-sequenced-list flag the sequencing phase advances only
forward, content and delimiter strictly alternating, and a violation yields
the comma-list error without advancing the phase.  Concretely: a,b,c yields
Token, Delimiter, Token, Delimiter, Token, ended; ,a yields the comma-list
error on the first call; a,,b yields it at the second comma (offset 2); a,
yields it at end-of-input. -/
theorem claim2_comma_list_sequencing :
    scanN (lws_tokenize_init [97, 44, 98, 44, 99] LWS_TOKENIZE_F_COMMA_SEP_LIST) 6 =
      [TOKEN, DELIMITER, TOKEN, DELIMITER, TOKEN, ENDED] ∧
    (lws_tokenize (lws_tokenize_init [44, 97] LWS_TOKENIZE_F_COMMA_SEP_LIST)).2 =
      ERR_COMMA_LIST ∧
    scanN (lws_tokenize_init [97, 44, 44, 98] LWS_TOKENIZE_F_COMMA_SEP_LIST) 3 =
      [TOKEN, DELIMITER, ERR_COMMA_LIST] ∧
    (scanN (lws_tokenize_init [97, 44, 44, 98] LWS_TOKENIZE_F_COMMA_SEP_LIST) 2 =
        [TOKEN, DELIMITER] →
      ((lws_tokenize ((lws_tokenize ((lws_tokenize
          (lws_tokenize_init [97, 44, 44, 98] LWS_TOKENIZE_F_COMMA_SEP_LIST)).1)).1)).1).pos = 2) ∧
    scanN (lws_tokenize_init [97, 44] LWS_TOKENIZE_F_COMMA_SEP_LIST) 3 =
      [TOKEN, DELIMITER, ERR_COMMA_LIST] ∧
    (∀ ts : lws_tokenize_t,
      ((lws_tokenize ts).1.delim = ts.delim ∨
       (ts.delim = NEED_FIRST_CONTENT ∧ (lws_tokenize ts).1.delim = NEED_DELIM) ∨
       (ts.delim = NEED_NEXT_CONTENT ∧ (lws_tokenize ts).1.delim = NEED_DELIM) ∨
       (ts.delim = NEED_DELIM ∧ (lws_tokenize ts).1.delim = NEED_NEXT_CONTENT)) ∧
      ((lws_tokenize ts).2 = ERR_COMMA_LIST → (lws_tokenize ts).1.delim = ts.delim)) := by
  refine ⟨by decide, by decide, by decide, fun _ => by decide, by decide, fun ts => ⟨?_, ?_⟩⟩
  · exact tokStepCore_delim_forward ts.flags ts.delim ts.token _ _ _
  · exact fun h => tokStepCore_comma_err_delim ts.flags ts.delim ts.token _ _ _ h

/-- C3 counterexample: with the dot-nonterminal flag, the content run
warmcat.com contains a dot not flanked by digits on both sides, yet the scan
step yields a single Token spanning the whole run rather than the
malformed-float error the claim asserts for any such content run. -/
theorem claim3_counterexample :
    (lws_tokenize (lws_tokenize_init
        [119, 97, 114, 109, 99, 97, 116, 46, 99, 111, 109]
        LWS_TOKENIZE_F_DOT_NONTERM)).2 = TOKEN ∧
    (lws_tokenize (lws_tokenize_init
        [119, 97, 114, 109, 99, 97, 116, 46, 99, 111, 109]
        LWS_TOKENIZE_F_DOT_NONTERM)).1.token = 0 ∧
    (lws_tokenize (lws_tokenize_init
        [119, 97, 114, 109, 99, 97, 116, 46, 99, 111, 109]
        LWS_TOKENIZE_F_DOT_NONTERM)).1.token_len = 11 ∧
    TOKEN ≠ ERR_MALFORMED_FLOAT := by
  decide

/-- C3 (amended): for every combination of the eight defined flags, scanning
0..1 yields the malformed-float error with the scanner stopped at the second
dot (offset 2); and in a content run that begins with a digit and is still
numeric, a second dot (0.1.1), a dot not followed by a digit (1.x) and a
trailing dot (1.) are malformed-float errors at the offending position under
the default flags, while runs not beginning with a digit are not subject to
the float checks. -/
theorem claim3_malformed_float :
    (∀ f : Fin 256,
      (lws_tokenize (lws_tokenize_init [48, 46, 46, 49] f.val)).2 =
        ERR_MALFORMED_FLOAT ∧
      (lws_tokenize (lws_tokenize_init [48, 46, 46, 49] f.val)).1.pos = 2) ∧
    ((lws_tokenize (lws_tokenize_init [48, 46, 49, 46, 49] 0)).2 =
        ERR_MALFORMED_FLOAT ∧
      (lws_tokenize (lws_tokenize_init [48, 46, 49, 46, 49] 0)).1.pos = 3) ∧
    ((lws_tokenize (lws_tokenize_init [49, 46, 120] 0)).2 =
        ERR_MALFORMED_FLOAT ∧
      (lws_tokenize (lws_tokenize_init [49, 46, 120] 0)).1.pos = 2) ∧
    ((lws_tokenize (lws_tokenize_init [49, 46] 0)).2 = ERR_MALFORMED_FLOAT ∧
      (lws_tokenize (lws_tokenize_init [49, 46] 0)).1.pos = 2) := by
  refine ⟨?_, by decide, by decide, by decide⟩
  decide


@[simp] lemma RunOut.consumed_bump (r : RunOut) : r.bump.consumed = r.consumed + 1 := by
  cases r <;> rfl

@[simp] lemma RunOut.consumed_broken (c : Nat) : (RunOut.broken c).consumed = c := rfl

@[simp] lemma RunOut.consumed_malformed (c : Nat) : (RunOut.malformed c).consumed = c := rfl

@[simp] lemma RunOut.consumed_ok (c : Nat) (n f : Bool) : (RunOut.ok c n f).consumed = c := rfl

/-- Whitespace skipping consumes at most the suffix and at most the
remaining length. -/
lemma skipWsC_le (flags : Nat) (m : Bool) (rest : List Nat) (len : Nat) :
    skipWsC flags m rest len ≤ rest.length ∧ skipWsC flags m rest len ≤ len := by
  induction m, rest, len using skipWsC.induct flags <;>
    (simp only [skipWsC]; repeat' split) <;> simp_all <;> omega

/-- The content-run scanner consumes at most the suffix and at most the
remaining length. -/
lemma scanRun_consumed_le (flags : Nat) (rest : List Nat) (len : Nat)
    (num : Option Bool) (flo dotLast : Bool) (exp : Nat) :
    (scanRun flags rest len num flo dotLast exp).consumed ≤ rest.length ∧
    (scanRun flags rest len num flo dotLast exp).consumed ≤ len := by
  induction rest, len, num, flo, dotLast, exp using scanRun.induct flags <;>
    (simp only [scanRun]; repeat' split) <;>
      simp_all <;> omega

@[simp] lemma QuoteOut.consumed_bump_quote (q : QuoteOut) :
    q.bump.consumed = q.consumed + 1 := by
  cases q <;> rfl

@[simp] lemma QuoteOut.consumed_unterm_quote (c : Nat) :
    (QuoteOut.unterm c).consumed = c := rfl

@[simp] lemma QuoteOut.consumed_broken_quote (c : Nat) :
    (QuoteOut.broken c).consumed = c := rfl

@[simp] lemma QuoteOut.consumed_ok_quote (c : Nat) :
    (QuoteOut.ok c).consumed = c + 1 := rfl

/-- The quoted-span scanner consumes at most the suffix and at most the
remaining length. -/
lemma scanQuoted_consumed_le (rest : List Nat) (len exp : Nat) :
    (scanQuoted rest len exp).consumed ≤ rest.length ∧
    (scanQuoted rest len exp).consumed ≤ len := by
  induction rest, len, exp using scanQuoted.induct <;>
    (simp only [scanQuoted]; repeat' split) <;> simp_all <;> omega

/-- The name-operator peek skips at most the suffix and at most the remaining
length, strictly so when it finds an operator byte. -/
lemma peekOp_le (flags : Nat) (rest : List Nat) (len : Nat) :
    (peekOp flags rest len).2 ≤ rest.length ∧
    (peekOp flags rest len).2 ≤ len ∧
    ((peekOp flags rest len).1 ≠ 0 →
      (peekOp flags rest len).2 < rest.length ∧
      (peekOp flags rest len).2 < len) := by
  induction rest, len using peekOp.induct flags <;>
    (simp only [peekOp]; repeat' split) <;> simp_all <;> omega

/-- Cursor and token bounds of the core scan step: the cursor moves only
forward, by at most the remaining length and at most the suffix length, and
every success element's token view lies between the element start and the
final cursor. -/
lemma tokStepCore_bounds (flags : Nat) (d0 : lws_tokenize_delimiter_tracking)
    (token0 pos1 len1 : Nat) (rest1 : List Nat) :
    pos1 ≤ (tokStepCore flags d0 token0 pos1 len1 rest1).pos ∧
    (tokStepCore flags d0 token0 pos1 len1 rest1).pos ≤ pos1 + len1 ∧
    (tokStepCore flags d0 token0 pos1 len1 rest1).pos ≤ pos1 + rest1.length ∧
    (1 ≤ (tokStepCore flags d0 token0 pos1 len1 rest1).e.val →
      pos1 ≤ (tokStepCore flags d0 token0 pos1 len1 rest1).token ∧
      (tokStepCore flags d0 token0 pos1 len1 rest1).token +
        (tokStepCore flags d0 token0 pos1 len1 rest1).token_len ≤
        (tokStepCore flags d0 token0 pos1 len1 rest1).pos) := by
  have hne : rest1.headD 0 ≠ 0 → 1 ≤ rest1.length := by
    cases rest1 <;> simp
  have hq := scanQuoted_consumed_le (rest1.drop 1) (len1 - 1) 0
  have hdl : (rest1.drop 1).length = rest1.length - 1 := List.length_drop 1 rest1
  have hr := scanRun_consumed_le flags rest1 len1 none false false 0
  simp only [tokStepCore]
  split
  · -- end of input
    split <;> simp [lws_tokenize_elem.val]
  next hcond =>
    have h1 : 1 ≤ rest1.length := hne (fun h => hcond (Or.inr h))
    have hlen1 : len1 ≠ 0 := fun h => hcond (Or.inl h)
    split
    · -- quoted string
      rcases hqq : scanQuoted (rest1.drop 1) (len1 - 1) 0 with c | c | clen <;>
        rw [hqq] at hq <;> simp only [hqq] <;> simp at hq
      · exact ⟨by omega, by omega, by omega, by simp [lws_tokenize_elem.val]⟩
      · exact ⟨by omega, by omega, by omega, by simp [lws_tokenize_elem.val]⟩
      · split
        · dsimp only
          exact ⟨by omega, by omega, by omega, by simp [lws_tokenize_elem.val]⟩
        · dsimp only
          exact ⟨by omega, by omega, by omega, fun _ => ⟨by omega, by omega⟩⟩
    · -- content run
      split
      · -- delimiter / comma judgement happens below; this split is the
        -- isContentByte test: content case
        rcases hrr : scanRun flags rest1 len1 none false false 0 with c | c | ⟨c, num, flo⟩ <;>
          rw [hrr] at hr <;> simp only [hrr] <;> simp at hr
        · exact ⟨by omega, by omega, by omega, by simp [lws_tokenize_elem.val]⟩
        · exact ⟨by omega, by omega, by omega, by simp [lws_tokenize_elem.val]⟩
        · have hp := peekOp_le flags (rest1.drop c) (len1 - c)
          have hdc : (rest1.drop c).length = rest1.length - c :=
            List.length_drop c rest1
          split
          · dsimp only
            exact ⟨by omega, by omega, by omega, by simp [lws_tokenize_elem.val]⟩
          · split
            · dsimp only
              exact ⟨by omega, by omega, by omega, by simp [lws_tokenize_elem.val]⟩
            · split
              · -- no operator: non-strict peek bounds suffice
                dsimp only
                refine ⟨by omega, by omega, by omega, fun _ => ⟨by omega, by omega⟩⟩
              · obtain ⟨hp1, hp2, hp3⟩ := hp
                have hp4 := hp3 (by assumption)
                dsimp only
                refine ⟨by omega, by omega, by omega, fun _ => ⟨by omega, by omega⟩⟩
      · -- single-byte delimiter
        split
        · split
          · dsimp only
            exact ⟨by omega, by omega, by omega, fun _ => ⟨by omega, by omega⟩⟩
          · dsimp only
            exact ⟨by omega, by omega, by omega, by simp [lws_tokenize_elem.val]⟩
        · dsimp only
          exact ⟨by omega, by omega, by omega, fun _ => ⟨by omega, by omega⟩⟩

/-- C8: across every scan call the cursor is monotonically non-decreasing,
never exceeds the caller-set remaining length nor the buffer length, and
after every success element the token view is a sub-range of the original
buffer, which is never copied or reallocated. -/
theorem claim8_cursor_token_invariants (ts : lws_tokenize_t)
    (h : ts.pos ≤ ts.start.length) :
    ts.pos ≤ (lws_tokenize ts).1.pos ∧
    (lws_tokenize ts).1.pos ≤ ts.pos + ts.len ∧
    (lws_tokenize ts).1.pos ≤ ts.start.length ∧
    (1 ≤ ((lws_tokenize ts).2).val →
      (lws_tokenize ts).1.token + (lws_tokenize ts).1.token_len ≤
        ts.start.length) ∧
    (lws_tokenize ts).1.start = ts.start := by
  have hk := skipWsC_le ts.flags false (ts.start.drop ts.pos) ts.len
  have hdl : (ts.start.drop ts.pos).length = ts.start.length - ts.pos :=
    List.length_drop ts.pos ts.start
  have hb := tokStepCore_bounds ts.flags ts.delim ts.token
    (ts.pos + skipWsC ts.flags false (ts.start.drop ts.pos) ts.len)
    (ts.len - skipWsC ts.flags false (ts.start.drop ts.pos) ts.len)
    (ts.start.drop (ts.pos + skipWsC ts.flags false (ts.start.drop ts.pos) ts.len))
  have hdl2 : (ts.start.drop
      (ts.pos + skipWsC ts.flags false (ts.start.drop ts.pos) ts.len)).length =
      ts.start.length -
        (ts.pos + skipWsC ts.flags false (ts.start.drop ts.pos) ts.len) :=
    List.length_drop _ ts.start
  obtain ⟨hk1, hk2⟩ := hk
  obtain ⟨b1, b2, b3, b4⟩ := hb
  simp only [lws_tokenize, tokStep]
  refine ⟨by omega, by omega, by omega, fun hv => ?_, by trivial⟩
  have h4 := b4 hv
  omega

/-- Witness for C8 at a concrete one-byte buffer. -/
theorem claim8_witness :
    (lws_tokenize_init [97] 0).pos ≤
      (lws_tokenize (lws_tokenize_init [97] 0)).1.pos ∧
    (lws_tokenize (lws_tokenize_init [97] 0)).1.pos ≤
      (lws_tokenize_init [97] 0).pos + (lws_tokenize_init [97] 0).len ∧
    (lws_tokenize (lws_tokenize_init [97] 0)).1.pos ≤
      (lws_tokenize_init [97] 0).start.length ∧
    (1 ≤ ((lws_tokenize (lws_tokenize_init [97] 0)).2).val →
      (lws_tokenize (lws_tokenize_init [97] 0)).1.token +
        (lws_tokenize (lws_tokenize_init [97] 0)).1.token_len ≤
        (lws_tokenize_init [97] 0).start.length) ∧
    (lws_tokenize (lws_tokenize_init [97] 0)).1.start =
      (lws_tokenize_init [97] 0).start :=
  claim8_cursor_token_invariants (lws_tokenize_init [97] 0) (by decide)

/-- Whitespace skipping does nothing at end of input. -/
lemma skipWsC_zero (flags : Nat) (m : Bool) (rest : List Nat) (len : Nat)
    (h : len = 0 ∨ rest.headD 0 = 0) : skipWsC flags m rest len = 0 := by
  cases rest with
  | nil => cases m <;> rfl
  | cons b tail =>
    rcases h with h | h
    · simp [skipWsC, h]
    · simp only [List.headD_cons] at h
      simp [skipWsC, h]

/-- End-of-input characterization of the core scan step: an ENDED result can
only come from the terminal branch, with the state otherwise untouched. -/
lemma tokStepCore_ended (flags : Nat) (d0 : lws_tokenize_delimiter_tracking)
    (token0 pos1 len1 : Nat) (rest1 : List Nat)
    (h : (tokStepCore flags d0 token0 pos1 len1 rest1).e = ENDED) :
    tokStepCore flags d0 token0 pos1 len1 rest1 =
      ⟨pos1, len1, token0, 0, d0, ENDED⟩ ∧
    (len1 = 0 ∨ rest1.headD 0 = 0) ∧
    ¬(Nat.testBit flags 2 ∧ d0 = NEED_NEXT_CONTENT) := by
  simp only [tokStepCore] at h ⊢
  repeat' split at h
  all_goals simp_all

/-- Terminal states step to themselves with the ENDED element. -/
lemma tokStepCore_terminal (flags : Nat) (d0 : lws_tokenize_delimiter_tracking)
    (token0 pos1 len1 : Nat) (rest1 : List Nat)
    (hend : len1 = 0 ∨ rest1.headD 0 = 0)
    (hseq : ¬(Nat.testBit flags 2 ∧ d0 = NEED_NEXT_CONTENT)) :
    tokStepCore flags d0 token0 pos1 len1 rest1 =
      ⟨pos1, len1, token0, 0, d0, ENDED⟩ := by
  simp only [tokStepCore]
  rw [if_pos hend, if_neg hseq]

/-- A scanner state at end of input with no pending comma-list obligation and
a cleared token view is a fixed point of the scan step, reporting ENDED. -/
lemma lws_tokenize_terminal (ts : lws_tokenize_t)
    (hend : ts.len = 0 ∨ (ts.start.drop ts.pos).headD 0 = 0)
    (hseq : ¬(Nat.testBit ts.flags 2 ∧ ts.delim = NEED_NEXT_CONTENT))
    (htl : ts.token_len = 0) :
    lws_tokenize ts = (ts, ENDED) := by
  have hk : skipWsC ts.flags false (ts.start.drop ts.pos) ts.len = 0 :=
    skipWsC_zero ts.flags false (ts.start.drop ts.pos) ts.len hend
  simp only [lws_tokenize, tokStep, hk, Nat.add_zero, Nat.sub_zero]
  rw [tokStepCore_terminal ts.flags ts.delim ts.token ts.pos ts.len
    (ts.start.drop ts.pos) hend hseq]
  rw [← htl]

/-- C9: end-of-input is absorbing: once a scan call has returned ENDED, every
further call on the resulting state returns ENDED again and leaves the state
unchanged. -/
theorem claim9_ended_absorbing (ts : lws_tokenize_t)
    (h : (lws_tokenize ts).2 = ENDED) :
    lws_tokenize (lws_tokenize ts).1 = ((lws_tokenize ts).1, ENDED) := by
  obtain ⟨heq, hcond, hseq⟩ := tokStepCore_ended ts.flags ts.delim ts.token
    (ts.pos + skipWsC ts.flags false (ts.start.drop ts.pos) ts.len)
    (ts.len - skipWsC ts.flags false (ts.start.drop ts.pos) ts.len)
    (ts.start.drop
      (ts.pos + skipWsC ts.flags false (ts.start.drop ts.pos) ts.len)) h
  have hpos : (lws_tokenize ts).1.pos =
      ts.pos + skipWsC ts.flags false (ts.start.drop ts.pos) ts.len :=
    congrArg StepOut.pos heq
  have hlen : (lws_tokenize ts).1.len =
      ts.len - skipWsC ts.flags false (ts.start.drop ts.pos) ts.len :=
    congrArg StepOut.len heq
  have htl : (lws_tokenize ts).1.token_len = 0 :=
    congrArg StepOut.token_len heq
  have hdelim : (lws_tokenize ts).1.delim = ts.delim :=
    congrArg StepOut.delim heq
  apply lws_tokenize_terminal
  · rw [hlen]
    rcases hcond with hc | hc
    · exact Or.inl hc
    · refine Or.inr ?_
      have hst : (lws_tokenize ts).1.start = ts.start := rfl
      rw [hst, hpos]
      exact hc
  · have hfl : (lws_tokenize ts).1.flags = ts.flags := rfl
    rw [hfl, hdelim]
    exact hseq
  · exact htl

/-- Witness for C9 on the empty buffer. -/
theorem claim9_witness :
    lws_tokenize (lws_tokenize (lws_tokenize_init [] 0)).1 =
      ((lws_tokenize (lws_tokenize_init [] 0)).1, ENDED) :=
  claim9_ended_absorbing (lws_tokenize_init [] 0) (by decide)


/-- Whitespace skipping does not move on a significant first byte. -/
lemma skipWsC_no_skip (flags : Nat) (b : Nat) (tail : List Nat) (len : Nat)
    (h1 : isWsByte b = false) (h2 : b ≠ 0) (h3 : b ≠ 35) :
    skipWsC flags false (b :: tail) len = 0 := by
  simp [skipWsC, h1, h2, h3]

/-- The quoted-span scanner accepts plain content up to the closing quote. -/
lemma scanQuoted_content (tail : List Nat) :
    ∀ (s : List Nat) (len : Nat), (∀ b ∈ s, b < 128 ∧ b ≠ 34 ∧ b ≠ 0) →
      s.length < len → scanQuoted (s ++ 34 :: tail) len 0 = .ok s.length := by
  intro s
  induction s with
  | nil =>
    intro len _ hlen
    have h0 : len ≠ 0 := by omega
    simp [scanQuoted, h0]
  | cons b s ih =>
    intro len hs hlen
    obtain ⟨hb1, hb2, hb3⟩ := hs b (by simp)
    have h0 : len ≠ 0 := by simp at hlen; omega
    have hrec := ih (len - 1) (fun x hx => hs x (by simp [hx])) (by simp at hlen; omega)
    simp [scanQuoted, QuoteOut.bump, h0, hb1, hb2, hb3, hrec]

/-- The quoted-span scanner reports an unterminated string when the input
ends without a closing quote. -/
lemma scanQuoted_unterm :
    ∀ (s : List Nat) (len : Nat), (∀ b ∈ s, b < 128 ∧ b ≠ 34 ∧ b ≠ 0) →
      s.length < len → scanQuoted s len 0 = .unterm s.length := by
  intro s
  induction s with
  | nil => intro len _ _; rfl
  | cons b s ih =>
    intro len hs hlen
    obtain ⟨hb1, hb2, hb3⟩ := hs b (by simp)
    have h0 : len ≠ 0 := by simp at hlen; omega
    have hrec := ih (len - 1) (fun x hx => hs x (by simp [hx])) (by simp at hlen; omega)
    simp [scanQuoted, QuoteOut.bump, h0, hb1, hb2, hb3, hrec]

/-- C5: an opening quote outside a comment yields QuotedString whose payload
is exactly the bytes between the quotes (both quotes excluded, no escape
processing) when a closing quote occurs, and the unterminated-string error
when end-of-input comes first; under every flag combination. -/
theorem claim5_quoted_string (flags : Nat) (s rest : List Nat)
    (hs : ∀ b ∈ s, b < 128 ∧ b ≠ 34 ∧ b ≠ 0)
    (hlen : s.length + 2 ≤ 2147483647) :
    ((lws_tokenize (lws_tokenize_init (34 :: (s ++ 34 :: rest)) flags)).2 =
        QUOTED_STRING ∧
      (lws_tokenize (lws_tokenize_init (34 :: (s ++ 34 :: rest)) flags)).1.token = 1 ∧
      (lws_tokenize (lws_tokenize_init (34 :: (s ++ 34 :: rest)) flags)).1.token_len =
        s.length) ∧
    (lws_tokenize (lws_tokenize_init (34 :: s) flags)).2 = ERR_UNTERM_STRING := by
  have hsk1 : skipWsC flags false (34 :: (s ++ 34 :: rest)) 2147483647 = 0 :=
    skipWsC_no_skip flags 34 _ _ (by decide) (by decide) (by decide)
  have hsk2 : skipWsC flags false (34 :: s) 2147483647 = 0 :=
    skipWsC_no_skip flags 34 _ _ (by decide) (by decide) (by decide)
  have hq1 := scanQuoted_content rest s (2147483647 - 1) hs (by omega)
  have hq2 := scanQuoted_unterm s (2147483647 - 1) hs (by omega)
  refine ⟨?_, ?_⟩
  · simp [lws_tokenize, lws_tokenize_init, tokStep, tokStepCore, hsk1, hq1]
  · simp [lws_tokenize, lws_tokenize_init, tokStep, tokStepCore, hsk2, hq2]

/-- Witness for C5 on the quoted body abc. -/
theorem claim5_witness :
    ((lws_tokenize (lws_tokenize_init (34 :: ([97, 98, 99] ++ 34 :: [])) 0)).2 =
        QUOTED_STRING ∧
      (lws_tokenize (lws_tokenize_init
          (34 :: ([97, 98, 99] ++ 34 :: [])) 0)).1.token = 1 ∧
      (lws_tokenize (lws_tokenize_init
          (34 :: ([97, 98, 99] ++ 34 :: [])) 0)).1.token_len =
        ([97, 98, 99] : List Nat).length) ∧
    (lws_tokenize (lws_tokenize_init (34 :: [97, 98, 99]) 0)).2 =
      ERR_UNTERM_STRING :=
  claim5_quoted_string 0 [97, 98, 99] [] (by decide) (by decide)


/-- Digits are content characters under every flag combination. -/
lemma isContentByte_digit (flags b : Nat) (h : isDigitByte b = true) :
    isContentByte flags b = true := by
  simp only [isDigitByte, Bool.and_eq_true, decide_eq_true_eq] at h
  simp only [isContentByte, Bool.or_eq_true, Bool.and_eq_true, decide_eq_true_eq]
  tauto

/-- Lowercase letters are content characters under every flag combination. -/
lemma isContentByte_alpha (flags b : Nat) (h1 : 97 ≤ b) (h2 : b ≤ 122) :
    isContentByte flags b = true := by
  simp only [isContentByte, Bool.or_eq_true, Bool.and_eq_true, decide_eq_true_eq]
  tauto

/-- The equals sign is not a content character under any flag combination. -/
lemma isContentByte_61 (flags : Nat) : isContentByte flags 61 = false := by
  simp [isContentByte, isRfc7230Extra]

/-- Whitespace bytes are not content characters under any flag combination. -/
lemma isContentByte_ws (flags w : Nat) (h : isWsByte w = true) :
    isContentByte flags w = false := by
  simp only [isWsByte, Bool.or_eq_true, decide_eq_true_eq] at h
  rcases h with ((((h | h) | h) | h) | h) <;> subst h <;>
    simp [isContentByte, isRfc7230Extra]

/-- A numeric run of digits ended by a non-content terminator byte is
accepted whole, staying numeric. -/
lemma scanRun_digits (flags : Nat) (w : Nat) (tail : List Nat)
    (hw0 : w ≠ 0) (hwd : isDigitByte w = false) (hw46 : w ≠ 46)
    (hwc : isContentByte flags w = false) (hw128 : w < 128) :
    ∀ (ds : List Nat) (len : Nat) (flo : Bool),
      (∀ b ∈ ds, isDigitByte b = true) → ds.length < len →
      scanRun flags (ds ++ w :: tail) len (some true) flo false 0 =
        .ok ds.length true flo := by
  intro ds
  induction ds with
  | nil =>
    intro len flo _ hlen
    have h0 : len ≠ 0 := by omega
    have hw128n : ¬ 128 ≤ w := by omega
    simp [scanRun, h0, hw0, hwd, hw46, hwc, hw128n]
  | cons d ds ih =>
    intro len flo hds hlen
    have hd := hds d (by simp)
    have hb : 48 ≤ d ∧ d ≤ 57 := by
      simpa [isDigitByte, Bool.and_eq_true, decide_eq_true_eq] using hd
    have h0 : len ≠ 0 := by simp at hlen; omega
    have hd0 : d ≠ 0 := by omega
    have h128 : ¬ 128 ≤ d := by omega
    have hrec := ih (len - 1) flo (fun x hx => hds x (by simp [hx]))
      (by simp at hlen; omega)
    simp [scanRun, RunOut.bump, h0, hd0, h128, hd, hrec]

/-- A run of lowercase letters ended by a non-content terminator byte is
accepted whole as a non-numeric token. -/
lemma scanRun_alpha (flags : Nat) (w : Nat) (tail : List Nat)
    (hw0 : w ≠ 0) (hwd : isDigitByte w = false) (hw46 : w ≠ 46)
    (hwc : isContentByte flags w = false) (hw128 : w < 128) :
    ∀ (as : List Nat) (len : Nat) (num : Option Bool) (flo : Bool),
      (∀ b ∈ as, 97 ≤ b ∧ b ≤ 122) → as.length < len →
      (num = none ∨ num = some false) →
      scanRun flags (as ++ w :: tail) len num flo false 0 =
        .ok as.length false flo := by
  intro as
  induction as with
  | nil =>
    intro len num flo _ hlen hnum
    have h0 : len ≠ 0 := by omega
    have hw128n : ¬ 128 ≤ w := by omega
    rcases hnum with h | h <;> subst h <;>
      simp [scanRun, h0, hw0, hwd, hw46, hwc, hw128n]
  | cons a as ih =>
    intro len num flo has hlen hnum
    obtain ⟨ha1, ha2⟩ := has a (by simp)
    have h0 : len ≠ 0 := by simp at hlen; omega
    have ha0 : a ≠ 0 := by omega
    have h128 : ¬ 128 ≤ a := by omega
    have had : isDigitByte a = false := by
      simp [isDigitByte]
      omega
    have ha46 : a ≠ 46 := by omega
    have hac : isContentByte flags a = true := isContentByte_alpha flags a ha1 ha2
    have hrec := ih (len - 1) (some false) flo
      (fun x hx => has x (by simp [hx])) (by simp at hlen; omega) (Or.inr rfl)
    rcases hnum with h | h <;> subst h <;>
      simp [scanRun, RunOut.bump, h0, ha0, h128, had, ha46, hac, hrec]

/-- The name-operator peek finds an equals sign past any run of whitespace. -/
lemma peekOp_ws_eq (flags : Nat) (tail : List Nat) :
    ∀ (ws : List Nat) (len : Nat), (∀ b ∈ ws, isWsByte b = true) →
      ws.length < len → peekOp flags (ws ++ 61 :: tail) len = (1, ws.length) := by
  intro ws
  induction ws with
  | nil =>
    intro len _ hlen
    have h0 : len ≠ 0 := by omega
    simp [peekOp, isWsByte, h0]
  | cons w ws ih =>
    intro len hws hlen
    have hw := hws w (by simp)
    have hw0 : w ≠ 0 := by
      simp only [isWsByte, Bool.or_eq_true, decide_eq_true_eq] at hw
      omega
    have h0 : len ≠ 0 := by simp at hlen; omega
    have hrec := ih (len - 1) (fun x hx => hws x (by simp [hx]))
      (by simp at hlen; omega)
    simp [peekOp, h0, hw0, hw, hrec]

/-- A numeric run followed by an equals sign produces the
numeric-left-hand-side error in the core step. -/
lemma tokStepCore_num_lhs (flags : Nat) (d0 : lws_tokenize_delimiter_tracking)
    (token0 pos1 len1 : Nat) (rest1 : List Nat) (c wsl : Nat) (flo : Bool)
    (hlen : len1 ≠ 0) (hh0 : rest1.headD 0 ≠ 0) (hh34 : rest1.headD 0 ≠ 34)
    (hcont : isContentByte flags (rest1.headD 0) = true)
    (hsr : scanRun flags rest1 len1 none false false 0 = .ok c true flo)
    (hpk : peekOp flags (rest1.drop c) (len1 - c) = (1, wsl)) :
    (tokStepCore flags d0 token0 pos1 len1 rest1).e = ERR_NUM_ON_LHS := by
  have hh0s := hh0
  have hh34s := hh34
  have hconts := hcont
  simp at hh0s hh34s hconts
  simp [tokStepCore, hlen, hh0s, hh34s, hconts, hsr, hpk]

/-- A non-numeric run followed by an equals sign produces the composite
TokenNameEquals element in the core step, with the run as payload. -/
lemma tokStepCore_name_equals (flags : Nat) (token0 pos1 len1 : Nat)
    (rest1 : List Nat) (c wsl : Nat) (flo : Bool)
    (hlen : len1 ≠ 0) (hh0 : rest1.headD 0 ≠ 0) (hh34 : rest1.headD 0 ≠ 34)
    (hcont : isContentByte flags (rest1.headD 0) = true)
    (hsr : scanRun flags rest1 len1 none false false 0 = .ok c false flo)
    (hpk : peekOp flags (rest1.drop c) (len1 - c) = (1, wsl)) :
    (tokStepCore flags NEED_FIRST_CONTENT token0 pos1 len1 rest1).e =
      TOKEN_NAME_EQUALS ∧
    (tokStepCore flags NEED_FIRST_CONTENT token0 pos1 len1 rest1).token = pos1 ∧
    (tokStepCore flags NEED_FIRST_CONTENT token0 pos1 len1 rest1).token_len = c := by
  have hh0s := hh0
  have hh34s := hh34
  have hconts := hcont
  simp at hh0s hh34s hconts
  refine ⟨?_, ?_, ?_⟩ <;>
    simp [tokStepCore, hlen, hh0s, hh34s, hconts, hsr, hpk]

/-- C4: a numeric token immediately followed, optionally through whitespace,
by an equals sign yields the numeric-left-hand-side error and no
TokenNameEquals element, while a non-numeric token so followed yields
TokenNameEquals with the token as payload; under every flag combination, for
every run of digits respectively lowercase letters, every whitespace run and
every continuation.  A float on the left of an equals sign (1.5=) also yields
the numeric-left-hand-side error. -/
theorem claim4_numeric_lhs (flags : Nat) (ds ws rest as : List Nat)
    (hds : ds ≠ []) (hdsd : ∀ b ∈ ds, isDigitByte b = true)
    (hws : ∀ b ∈ ws, isWsByte b = true)
    (hasne : as ≠ []) (hasa : ∀ b ∈ as, 97 ≤ b ∧ b ≤ 122)
    (hlen1 : ds.length + ws.length + 2 ≤ 2147483647)
    (hlen2 : as.length + ws.length + 2 ≤ 2147483647) :
    (lws_tokenize (lws_tokenize_init (ds ++ (ws ++ 61 :: rest)) flags)).2 =
      ERR_NUM_ON_LHS ∧
    ((lws_tokenize (lws_tokenize_init (as ++ (ws ++ 61 :: rest)) flags)).2 =
        TOKEN_NAME_EQUALS ∧
      (lws_tokenize (lws_tokenize_init (as ++ (ws ++ 61 :: rest)) flags)).1.token = 0 ∧
      (lws_tokenize (lws_tokenize_init (as ++ (ws ++ 61 :: rest)) flags)).1.token_len =
        as.length) ∧
    (lws_tokenize (lws_tokenize_init [49, 46, 53, 61] 0)).2 = ERR_NUM_ON_LHS := by
  have hterm : ∀ w ∈ ws, w ≠ 0 ∧ isDigitByte w = false ∧ w ≠ 46 ∧
      isContentByte flags w = false ∧ w < 128 := by
    intro w hw
    have h := hws w hw
    have hb : w = 32 ∨ w = 9 ∨ w = 10 ∨ w = 13 ∨ w = 12 := by
      simpa [isWsByte, Bool.or_eq_true, decide_eq_true_eq, or_assoc] using h
    refine ⟨by omega, by simp [isDigitByte]; omega, by omega,
      isContentByte_ws flags w h, by omega⟩
  refine ⟨?_, ?_, by decide⟩
  · -- digits ++ ws ++ equals
    rcases ds with _ | ⟨d, ds⟩
    · exact absurd rfl hds
    have hd := hdsd d (by simp)
    have hb : 48 ≤ d ∧ d ≤ 57 := by
      simpa [isDigitByte, Bool.and_eq_true, decide_eq_true_eq] using hd
    have hlc : (d :: ds).length + ws.length + 2 ≤ 2147483647 := hlen1
    simp only [List.length_cons] at hlc
    have hrunfact : scanRun flags (ds ++ (ws ++ 61 :: rest)) 2147483646
        (some true) false false 0 = .ok ds.length true false := by
      rcases ws with _ | ⟨w, ws1⟩
      · simpa using scanRun_digits flags 61 rest (by decide) (by decide)
          (by decide) (isContentByte_61 flags) (by decide) ds 2147483646 false
          (fun x hx => hdsd x (by simp [hx])) (by omega)
      · obtain ⟨hw0, hwd, hw46, hwc, hw128⟩ := hterm w (by simp)
        simpa using scanRun_digits flags w (ws1 ++ 61 :: rest) hw0 hwd hw46
          hwc hw128 ds 2147483646 false
          (fun x hx => hdsd x (by simp [hx])) (by simp at hlc; omega)
    have hfull : scanRun flags (d :: (ds ++ (ws ++ 61 :: rest))) 2147483647
        none false false 0 = .ok (ds.length + 1) true false := by
      have hd0 : d ≠ 0 := by omega
      have h128 : ¬ 128 ≤ d := by omega
      simp [scanRun, RunOut.bump, hd0, h128, hd, hrunfact]
    have hdrop : (d :: (ds ++ (ws ++ 61 :: rest))).drop (ds.length + 1) =
        ws ++ 61 :: rest := by
      have := List.drop_left (d :: ds) (ws ++ 61 :: rest)
      simpa using this
    have hpeek : peekOp flags
        ((d :: (ds ++ (ws ++ 61 :: rest))).drop (ds.length + 1))
        (2147483647 - (ds.length + 1)) = (1, ws.length) := by
      rw [hdrop]
      exact peekOp_ws_eq flags rest ws (2147483647 - (ds.length + 1)) hws
        (by omega)
    have hskip : skipWsC flags false (d :: (ds ++ (ws ++ 61 :: rest)))
        2147483647 = 0 := by
      refine skipWsC_no_skip flags d (ds ++ (ws ++ 61 :: rest)) 2147483647
        ?_ (by omega) (by omega)
      simp [isWsByte]
      omega
    simp only [lws_tokenize, lws_tokenize_init, tokStep, List.cons_append,
      List.drop_zero, hskip, Nat.add_zero, Nat.sub_zero]
    exact tokStepCore_num_lhs flags NEED_FIRST_CONTENT 0 0 2147483647
      (d :: (ds ++ (ws ++ 61 :: rest))) (ds.length + 1) ws.length false
      (by decide) (by simp; omega) (by simp; omega)
      (by simpa using isContentByte_digit flags d hd) hfull hpeek
  · -- letters ++ ws ++ equals
    rcases as with _ | ⟨a, as⟩
    · exact absurd rfl hasne
    obtain ⟨ha1, ha2⟩ := hasa a (by simp)
    have hlc : (a :: as).length + ws.length + 2 ≤ 2147483647 := hlen2
    simp only [List.length_cons] at hlc
    have hrunfact : scanRun flags (as ++ (ws ++ 61 :: rest)) 2147483646
        (some false) false false 0 = .ok as.length false false := by
      rcases ws with _ | ⟨w, ws1⟩
      · simpa using scanRun_alpha flags 61 rest (by decide) (by decide)
          (by decide) (isContentByte_61 flags) (by decide) as 2147483646
          (some false) false (fun x hx => hasa x (by simp [hx])) (by omega)
          (Or.inr rfl)
      · obtain ⟨hw0, hwd, hw46, hwc, hw128⟩ := hterm w (by simp)
        simpa using scanRun_alpha flags w (ws1 ++ 61 :: rest) hw0 hwd hw46
          hwc hw128 as 2147483646 (some false) false
          (fun x hx => hasa x (by simp [hx])) (by simp at hlc; omega)
          (Or.inr rfl)
    have hfull : scanRun flags (a :: (as ++ (ws ++ 61 :: rest))) 2147483647
        none false false 0 = .ok (as.length + 1) false false := by
      have ha0 : a ≠ 0 := by omega
      have h128 : ¬ 128 ≤ a := by omega
      have had : isDigitByte a = false := by simp [isDigitByte]; omega
      have ha46 : a ≠ 46 := by omega
      have hac : isContentByte flags a = true := isContentByte_alpha flags a ha1 ha2
      simp [scanRun, RunOut.bump, ha0, h128, had, ha46, hac, hrunfact]
    have hdrop : (a :: (as ++ (ws ++ 61 :: rest))).drop (as.length + 1) =
        ws ++ 61 :: rest := by
      have := List.drop_left (a :: as) (ws ++ 61 :: rest)
      simpa using this
    have hpeek : peekOp flags
        ((a :: (as ++ (ws ++ 61 :: rest))).drop (as.length + 1))
        (2147483647 - (as.length + 1)) = (1, ws.length) := by
      rw [hdrop]
      exact peekOp_ws_eq flags rest ws (2147483647 - (as.length + 1)) hws
        (by omega)
    have hskip : skipWsC flags false (a :: (as ++ (ws ++ 61 :: rest)))
        2147483647 = 0 := by
      refine skipWsC_no_skip flags a (as ++ (ws ++ 61 :: rest)) 2147483647
        ?_ (by omega) (by omega)
      simp [isWsByte]
      omega
    have hcore := tokStepCore_name_equals flags 0 0 2147483647
      (a :: (as ++ (ws ++ 61 :: rest))) (as.length + 1) ws.length false
      (by decide) (by simp; omega) (by simp; omega)
      (by simpa using isContentByte_alpha flags a ha1 ha2) hfull hpeek
    simp only [lws_tokenize, lws_tokenize_init, tokStep, List.cons_append,
      List.drop_zero, hskip, Nat.add_zero, Nat.sub_zero]
    exact ⟨hcore.1, by rw [hcore.2.1], by rw [hcore.2.2]; simp⟩

/-- Witness for C4 at 123= and name=. -/
theorem claim4_witness :
    (lws_tokenize (lws_tokenize_init ([49, 50, 51] ++ ([] ++ 61 :: [])) 0)).2 =
      ERR_NUM_ON_LHS ∧
    ((lws_tokenize (lws_tokenize_init
        ([110, 97, 109, 101] ++ ([] ++ 61 :: [])) 0)).2 = TOKEN_NAME_EQUALS ∧
      (lws_tokenize (lws_tokenize_init
        ([110, 97, 109, 101] ++ ([] ++ 61 :: [])) 0)).1.token = 0 ∧
      (lws_tokenize (lws_tokenize_init
        ([110, 97, 109, 101] ++ ([] ++ 61 :: [])) 0)).1.token_len =
        ([110, 97, 109, 101] : List Nat).length) ∧
    (lws_tokenize (lws_tokenize_init [49, 46, 53, 61] 0)).2 = ERR_NUM_ON_LHS :=
  claim4_numeric_lhs 0 [49, 50, 51] [] [] [110, 97, 109, 101]
    (by decide) (by decide) (by decide) (by decide) (by decide)
    (by decide) (by decide)

end LwsTok
